import Mathlib

/-!
Verification development for the BI-Intelligence backend orchestration core.

The JavaScript source is shallowly embedded in Lean:
* pure computations (JSON-like parameter merging, plan filtering, confidence
  arithmetic, context trimming) become Lean functions over explicit data types;
* network / process effects (model generation, HTTP tool calls) become oracle
  parameters: the environment's reply for a given call is passed in as data,
  and theorems quantify over all replies;
* JavaScript numbers are modelled as rationals, `undefined` as `Option.none`,
  thrown exceptions as `Except.error`.

Source files embedded: `src/services/mcpBridge.js`, `src/services/toolManager.js`,
`src/services/mcpClient.js`, `src/services/modelManager.js`, `src/utils/helpers.js`,
and the static configuration `src/config/tools.json`, `src/config/mcp.json`.
-/

namespace BIBackend

/-- A JSON-like scalar parameter value (JavaScript primitive), including `NaN`
which `parseFloat` can produce. -/
inductive PVal where
  | num (q : ℚ)
  | str (s : String)
  | bool (b : Bool)
  | null
  | nan
deriving Repr, DecidableEq

/-- An uploaded file record as the orchestration core sees it
(`name`, MIME `type`, and the storage `path` attached by the tool manager). -/
structure FileRec where
  name : String
  type : String
  path : String := ""
deriving Repr, DecidableEq

/-- Declared parameter of a tool descriptor in `tools.json`:
a default value and, for numeric parameters, optional declared bounds. -/
structure ParamSpec where
  type : String
  default : PVal
  min : Option ℚ := none
  max : Option ℚ := none
deriving Repr, DecidableEq

/-- A tool descriptor from `tools.json`.  Descriptive fields (`name`,
`description`, `capabilities`) only feed prompt text shown to the model and
are omitted; everything the embedded functions read is kept. -/
structure ToolConfig where
  id : String
  endpoint : Option String := none
  input_types : List String
  parameters : List (String × ParamSpec) := []
  source : String
  server : Option String := none
deriving Repr, DecidableEq

/-- A parsed tool-selection plan (the structured model output or the heuristic
fallback).  `execution_order := none` models an absent (`undefined`) field. -/
structure ToolSelection where
  selected_tools : List String
  reasoning : String := ""
  execution_order : Option (List String) := none
  tool_parameters : List (String × List (String × PVal)) := []
  file_requirements : List String := []
deriving Repr, DecidableEq

/-- One tool outcome pushed by `executeTools`.  The `executedAt` wall-clock
timestamp is an environment input with no bearing on control flow and is not
modelled. -/
structure ToolResult where
  toolId : String
  success : Bool
  result : Option PVal := none
  error : Option String := none
deriving Repr, DecidableEq

/-- The parameter object handed to `toolManager.executeTool`
(`{ files, userRequest, parameters }` built in `executeTools`). -/
structure ExecParams where
  files : List FileRec
  userRequest : String
  parameters : List (String × PVal)
deriving Repr, DecidableEq

/-- One conversation turn stored in `activeConversations`
(timestamp omitted as above). -/
structure ConversationTurn where
  userMessage : String
  toolsUsed : List String
  toolResults : List ToolResult
  response : String
deriving Repr, DecidableEq

/-- The live model handle: its id plus which optional client methods exist
(`client.orchestrateTools`, `client.synthesizeResponse`). -/
structure ModelHandle where
  id : String
  hasOrchestrate : Bool := false
  hasSynthesize : Bool := false
deriving Repr, DecidableEq

/-- The MCPBridge instance state that the embedded operations read and write. -/
structure BridgeState where
  isInitialized : Bool
  currentModel : Option ModelHandle
  activeConversations : List (String × List ConversationTurn) := []
deriving Repr, DecidableEq

/-- The object `processUserRequest` returns to its caller. -/
structure TurnResponse where
  response : String
  toolsUsed : List String
  confidence : ℚ
  conversationId : String
  error : Option String := none
deriving Repr, DecidableEq

/-- Live availability of the two transports, as `toolManager.isToolAvailable`
reads it: the per-server `mcpClient.isConnected` flag and whether the docker
endpoint is configured (`this.dockerEndpoint !== null`). -/
structure Availability where
  mcpConnected : String → Bool
  dockerEndpointSet : Bool

/-- The retry policy declared in `src/config/mcp.json`
(`tool_execution.retry_policy`). -/
structure RetryPolicy where
  max_retries : ℕ
  retry_delay : ℕ
  exponential_backoff : Bool
deriving Repr, DecidableEq

/-- Embeds `mcp.json`: `"retry_policy": { "max_retries": 2, "retry_delay": 1000,
"exponential_backoff": true }`. -/
def mcpRetryPolicy : RetryPolicy :=
  { max_retries := 2, retry_delay := 1000, exponential_backoff := true }

/-- The 14 tool descriptors of `tools.json` (`available_tools`). -/
def toolsConfig : List ToolConfig :=
  [ { id := "pdf_analyzer", endpoint := some "/tools/pdf/analyze",
      input_types := ["application/pdf"],
      parameters := [("extract_images", { type := "boolean", default := .bool false }),
                     ("extract_tables", { type := "boolean", default := .bool true }),
                     ("language", { type := "string", default := .str "auto" })],
      source := "docker" },
    { id := "excel_processor", endpoint := some "/tools/excel/process",
      input_types := ["application/vnd.openxmlformats-officedocument.spreadsheetml.sheet",
                      "application/vnd.ms-excel"],
      parameters := [("sheet_name", { type := "string", default := .null }),
                     ("include_charts", { type := "boolean", default := .bool true }),
                     ("data_summary", { type := "boolean", default := .bool true })],
      source := "docker" },
    { id := "image_analyzer", endpoint := some "/tools/image/analyze",
      input_types := ["image/jpeg", "image/png", "image/gif", "image/bmp"],
      parameters := [("detect_text", { type := "boolean", default := .bool true }),
                     ("detect_objects", { type := "boolean", default := .bool true }),
                     ("extract_metadata", { type := "boolean", default := .bool true })],
      source := "docker" },
    { id := "text_processor", endpoint := some "/tools/text/process",
      input_types := ["text/plain", "application/msword",
                      "application/vnd.openxmlformats-officedocument.wordprocessingml.document"],
      parameters := [("summarize", { type := "boolean", default := .bool true }),
                     ("extract_keywords", { type := "boolean", default := .bool true }),
                     ("sentiment_analysis", { type := "boolean", default := .bool false })],
      source := "docker" },
    { id := "data_visualizer", endpoint := some "/tools/data/visualize",
      input_types := ["text/csv", "application/json"],
      parameters := [("chart_type", { type := "string", default := .str "auto" }),
                     ("include_statistics", { type := "boolean", default := .bool true }),
                     ("color_scheme", { type := "string", default := .str "default" })],
      source := "docker" },
    { id := "video_processor", endpoint := some "/tools/video/process",
      input_types := ["video/mp4", "video/avi", "video/mov", "video/wmv"],
      parameters := [("extract_frames", { type := "boolean", default := .bool true }),
                     ("frame_interval", { type := "number", default := .num 5 }),
                     ("extract_audio", { type := "boolean", default := .bool false })],
      source := "docker" },
    { id := "audio_processor", endpoint := some "/tools/audio/process",
      input_types := ["audio/mp3", "audio/wav", "audio/flac", "audio/aac"],
      parameters := [("transcribe", { type := "boolean", default := .bool true }),
                     ("language", { type := "string", default := .str "auto" }),
                     ("include_timestamps", { type := "boolean", default := .bool true })],
      source := "docker" },
    { id := "extract_figures_from_pdf",
      input_types := ["application/pdf"],
      parameters := [("confidence",
        { type := "number", default := .num (1/5), min := some (1/10), max := some (9/10) })],
      source := "mcp", server := some "document_analysis" },
    { id := "extract_tables_from_pdf",
      input_types := ["application/pdf"],
      parameters := [("confidence",
        { type := "number", default := .num (1/5), min := some (1/10), max := some (9/10) })],
      source := "mcp", server := some "document_analysis" },
    { id := "extract_text_from_pdf",
      input_types := ["application/pdf"],
      parameters := [("confidence",
        { type := "number", default := .num (1/5), min := some (1/10), max := some (9/10) })],
      source := "mcp", server := some "document_analysis" },
    { id := "extract_formulas_from_pdf",
      input_types := ["application/pdf"],
      parameters := [("confidence",
        { type := "number", default := .num (1/5), min := some (1/10), max := some (9/10) })],
      source := "mcp", server := some "document_analysis" },
    { id := "get_pdf_document_stats",
      input_types := ["application/pdf"],
      parameters := [("confidence",
        { type := "number", default := .num (1/5), min := some (1/10), max := some (9/10) })],
      source := "mcp", server := some "document_analysis" },
    { id := "analyze_pdf_layout",
      input_types := ["application/pdf"],
      parameters := [("confidence",
        { type := "number", default := .num (1/5), min := some (1/10), max := some (9/10) })],
      source := "mcp", server := some "document_analysis" },
    { id := "extract_all_from_pdf",
      input_types := ["application/pdf"],
      parameters := [("confidence",
        { type := "number", default := .num (1/5), min := some (1/10), max := some (9/10) })],
      source := "mcp", server := some "document_analysis" } ]

/-! ### Small JavaScript-semantics helpers -/

/-- Association-list read, modelling a JavaScript object property read
(`none` = `undefined`). -/
def getProp (l : List (String × α)) (k : String) : Option α :=
  List.lookup k l

/-- Association-list write, modelling `obj[k] = v`: replaces the existing
entry or appends a new one. -/
def setProp (l : List (String × α)) (k : String) (v : α) : List (String × α) :=
  match l with
  | [] => [(k, v)]
  | (k₀, v₀) :: rest =>
      if k₀ = k then (k₀, v) :: rest else (k₀, v₀) :: setProp rest k v

/-- Embeds `Object.assign(target, src)`: write every property of `src` into `target`. -/
def assignProps (target src : List (String × α)) : List (String × α) :=
  src.foldl (fun acc kv => setProp acc kv.1 kv.2) target

/-- Contiguous-sublist test on character lists. -/
def containsSub (sub : List Char) : List Char → Bool
  | [] => sub.isEmpty
  | c :: rest => sub.isPrefixOf (c :: rest) || containsSub sub rest

/-- JavaScript `String.prototype.includes(sub)` (substring test). -/
def jsIncludes (s sub : String) : Bool :=
  containsSub sub.toList s.toList

/-- Embeds `[...new Set(l)]`: de-duplicate keeping first occurrences in order. -/
def dedup (l : List String) : List String :=
  (l.foldl (fun acc x => if acc.contains x then acc else acc ++ [x]) [])

/-! ### Regex models

`mcpBridge.getToolParameters` scrapes `/confidence[:\s]*([0-9.]+)/i` from the
user message, and the JSON-from-prose extraction uses `/\{[\s\S]*\}/`.  Both
regexes are modelled directly on character lists. -/

/-- Characters matched by the regex class `[:\s]`. -/
def isSepChar (c : Char) : Bool :=
  c = ':' || c = ' ' || c = '\t' || c = '\n' || c = '\r'

/-- Characters matched by the regex class `[0-9.]`. -/
def isNumChar (c : Char) : Bool :=
  c.isDigit || c = '.'

/-- The literal `confidence`, lowercased, for the case-insensitive match. -/
def confidenceWord : List Char :=
  ['c', 'o', 'n', 'f', 'i', 'd', 'e', 'n', 'c', 'e']

/-- Case-insensitive prefix test against a lowercase pattern. -/
def startsWithCI (pat l : List Char) : Bool :=
  match pat, l with
  | [], _ => true
  | _ :: _, [] => false
  | p :: ps, c :: cs => (c.toLower = p) && startsWithCI ps cs

/-- The capture group of `msg.match(/confidence[:\s]*([0-9.]+)/i)`: scan for
the leftmost occurrence of `confidence` followed by separators and at least
one `[0-9.]` character; return the maximal `[0-9.]+` run.  (The character
classes `[:\s]` and `[0-9.]` are disjoint, so regex backtracking inside the
separator run can never produce a different match.) -/
def scrapeConfidence : List Char → Option (List Char)
  | [] => none
  | c :: rest =>
      if startsWithCI confidenceWord (c :: rest) then
        let after := (c :: rest).drop confidenceWord.length
        let digits := (after.dropWhile isSepChar).takeWhile isNumChar
        if digits.isEmpty then scrapeConfidence rest else some digits
      else scrapeConfidence rest

/-- Fold a digit list into a natural number. -/
def digitsToNat (l : List Char) : ℕ :=
  l.foldl (fun acc c => 10 * acc + (c.toNat - '0'.toNat)) 0

/-- JavaScript `parseFloat` restricted to `[0-9.]+` strings (the only inputs
the scraper can produce): digits, optionally a dot and more digits; anything
after a second dot is ignored; no leading digit or fraction digit at all is
`NaN` (`none`). -/
def parseFloatQ (l : List Char) : Option ℚ :=
  let intPart := l.takeWhile Char.isDigit
  let rest := l.drop intPart.length
  match rest with
  | '.' :: tail =>
      let fracPart := tail.takeWhile Char.isDigit
      if intPart.isEmpty && fracPart.isEmpty then none
      else some ((digitsToNat intPart : ℚ) +
                 (digitsToNat fracPart : ℚ) / ((10 : ℚ) ^ fracPart.length))
  | _ => if intPart.isEmpty then none else some (digitsToNat intPart : ℚ)

/-- Everything up to and including the last `}` of the list
(empty if there is no `}`). -/
def takeToLastClose (l : List Char) : List Char :=
  ((l.reverse.dropWhile (fun c => c ≠ '}')).reverse)

/-- The JavaScript match `text.match(/\{[\s\S]*\}/)`: the greedy match starts
at the first `{` that still has a `}` somewhere after it and extends to the
last `}` of the text; `none` when the regex does not match. -/
def braceMatch : List Char → Option (List Char)
  | [] => none
  | c :: rest =>
      if c = '{' && rest.contains '}' then some (c :: takeToLastClose rest)
      else braceMatch rest

/-! ### Tool Manager (`src/services/toolManager.js`) -/

/-- Embeds `toolManager.getToolConfig`: look the tool up in `available_tools`. -/
def getToolConfig (cfg : List ToolConfig) (toolId : String) : Option ToolConfig :=
  cfg.find? (fun tool => tool.id = toolId)

/-- Embeds `toolManager.isToolAvailable`: an `mcp` tool is available when its
server's client is connected (default server `document_analysis`); a
`docker` tool when the docker endpoint is configured; anything else never. -/
def isToolAvailable (av : Availability) (tool : ToolConfig) : Bool :=
  if tool.source = "mcp" then av.mcpConnected (tool.server.getD "document_analysis")
  else if tool.source = "docker" then av.dockerEndpointSet
  else false

/-- Embeds `toolManager.getAvailableTools`: every descriptor paired with its
live `available` flag. -/
def getAvailableTools (cfg : List ToolConfig) (av : Availability) :
    List (ToolConfig × Bool) :=
  cfg.map (fun tool => (tool, isToolAvailable av tool))

/-- The `availableTools.filter(tool => tool.available)` step shared by the
planning paths. -/
def activeTools (cfg : List ToolConfig) (av : Availability) :
    List (ToolConfig × Bool) :=
  (getAvailableTools cfg av).filter (fun t => t.2)

/-- Embeds `toolManager.executeTool`: route by the tool's `source`, failing on an
unknown tool id or unknown source.  The two transport strategies perform
network I/O and are oracle parameters. -/
def toolManagerDispatch (cfg : List ToolConfig)
    (mcpExec dockerExec : ToolConfig → ExecParams → Except String PVal)
    (toolId : String) (ps : ExecParams) : Except String PVal :=
  match getToolConfig cfg toolId with
  | none => .error ("Tool " ++ toolId ++ " not found")
  | some tc =>
      if tc.source = "mcp" then mcpExec tc ps
      else if tc.source = "docker" then dockerExec tc ps
      else .error ("Unknown tool source: " ++ tc.source)

/-! ### Orchestrator (`src/services/mcpBridge.js`) -/

/-- Environment replies consumed by one orchestration turn.  Each field is
the outcome the remote side would produce for the corresponding call;
theorems quantify over all of them. -/
structure Oracles where
  /-- Reply of `currentModel.generateResponse` for the tool-selection prompt. -/
  toolSelectionReply : Except String String
  /-- Reply of `client.orchestrateTools` (Claude orchestration path). -/
  orchestrateReply : Except String ToolSelection
  /-- Reply of `currentModel.generateResponse` for the synthesis prompt. -/
  synthesisReply : Except String String
  /-- Reply of `client.synthesizeResponse` (Claude synthesis path). -/
  claudeSynthReply : Except String String
  /-- Embeds `JSON.parse` on the extracted text, shaped into a `ToolSelection`
  (`none` = parse threw, or the parsed value lacked the required fields). -/
  parse : List Char → Option ToolSelection
  /-- Outcome of `toolManager.executeTool` for a given tool id and parameters. -/
  dispatch : String → ExecParams → Except String PVal

/-- Embeds `mcpBridge.fallbackToolSelection`: fixed MIME-substring precedence per
file, de-duplicated with `new Set`, no model call. -/
def fallbackToolSelection (uploadedFiles : List FileRec) : ToolSelection :=
  let tools := uploadedFiles.foldl (fun acc file =>
    if jsIncludes file.type "pdf" then acc ++ ["extract_all_from_pdf"]
    else if jsIncludes file.type "excel" || jsIncludes file.type "spreadsheet" then
      acc ++ ["excel_processor"]
    else if jsIncludes file.type "image" then acc ++ ["image_analyzer"]
    else if jsIncludes file.type "text" || jsIncludes file.type "word" then
      acc ++ ["text_processor"]
    else if jsIncludes file.type "video" then acc ++ ["video_processor"]
    else if jsIncludes file.type "audio" then acc ++ ["audio_processor"]
    else acc) []
  { selected_tools := dedup tools,
    reasoning := "Automatic tool selection based on file types",
    file_requirements := uploadedFiles.map (fun f => f.name),
    execution_order := some (dedup tools),
    tool_parameters := [] }

/-- The JSON extraction step of `selectTools` (lines 202-209): if the regex
`/\{[\s\S]*\}/` matches, parse the match, otherwise parse the whole reply;
`none` means the parse threw and the caller falls back. -/
def extractSelection (parse : List Char → Option ToolSelection)
    (resp : List Char) : Option ToolSelection :=
  match braceMatch resp with
  | some j => parse j
  | none => parse resp

/-- Embeds `mcpBridge.selectTools`: with no active tools, or when the model call or
the parse fails, use the heuristic fallback; otherwise keep the parsed plan
with `selected_tools` filtered to active tool ids.  Prompt construction only
feeds the model and is absorbed into the reply oracle. -/
def selectTools (cfg : List ToolConfig) (av : Availability) (o : Oracles)
    (uploadedFiles : List FileRec) : ToolSelection :=
  let active := activeTools cfg av
  if active.isEmpty then fallbackToolSelection uploadedFiles
  else
    match o.toolSelectionReply with
    | .error _ => fallbackToolSelection uploadedFiles
    | .ok resp =>
        match extractSelection o.parse resp.toList with
        | none => fallbackToolSelection uploadedFiles
        | some ts =>
            let filtered := ts.selected_tools.filter
              (fun toolId => active.any (fun t => t.1.id = toolId))
            { ts with selected_tools := filtered }

/-- Embeds `mcpBridge.selectToolsWithClaude`: empty-plan literal when no tool is
active; orchestration errors fall back; otherwise filter `selected_tools`. -/
def selectToolsWithClaude (cfg : List ToolConfig) (av : Availability)
    (o : Oracles) (uploadedFiles : List FileRec) : ToolSelection :=
  let active := activeTools cfg av
  if active.isEmpty then
    { selected_tools := [], reasoning := "No tools are currently available",
      execution_order := some [], tool_parameters := [], file_requirements := [] }
  else
    match o.orchestrateReply with
    | .error _ => fallbackToolSelection uploadedFiles
    | .ok ts =>
        let filtered := ts.selected_tools.filter
          (fun toolId => active.any (fun t => t.1.id = toolId))
        { ts with selected_tools := filtered }

/-- Embeds `mcpBridge.filterFilesForTool`: all files when the tool config is
missing; otherwise files whose MIME type equals a declared input type or
contains the declared type's subtype (`type.split('/')[1]`). -/
def filterFilesForTool (cfg : List ToolConfig) (toolId : String)
    (uploadedFiles : List FileRec) : List FileRec :=
  match getToolConfig cfg toolId with
  | none => uploadedFiles
  | some tc =>
      uploadedFiles.filter (fun file =>
        tc.input_types.any (fun t =>
          file.type = t || jsIncludes file.type (((t.splitOn "/").getD 1 "undefined"))))

/-- Embeds `mcpBridge.getToolParameters`: descriptor defaults, then the plan's
per-tool overrides via `Object.assign`, then the confidence value scraped
from the user message (a `NaN` `parseFloat` result is stored as such). -/
def getToolParameters (cfg : List ToolConfig) (toolId : String)
    (userMessage : String) (sel : ToolSelection) : List (String × PVal) :=
  let base : List (String × PVal) :=
    match getToolConfig cfg toolId with
    | some tc => tc.parameters.map (fun kv => (kv.1, kv.2.default))
    | none => []
  let withOverrides :=
    match getProp sel.tool_parameters toolId with
    | some ov => assignProps base ov
    | none => base
  match scrapeConfidence userMessage.toList with
  | some digits =>
      setProp withOverrides "confidence"
        (match parseFloatQ digits with
         | some q => PVal.num q
         | none => PVal.nan)
  | none => withOverrides

/-- The execution order `executeTools` resolves:
`toolSelection.execution_order || toolSelection.selected_tools`
(an absent field, not an empty list, selects the fallback). -/
def resolvedOrder (sel : ToolSelection) : List String :=
  sel.execution_order.getD sel.selected_tools

/-- One iteration of the `executeTools` loop: build the invocation
parameters, dispatch once, and record the outcome as a `ToolResult`
whether it succeeded or threw. -/
def runTool (cfg : List ToolConfig)
    (dispatch : String → ExecParams → Except String PVal)
    (sel : ToolSelection) (uploadedFiles : List FileRec) (userMessage : String)
    (toolId : String) : ToolResult :=
  let relevantFiles := filterFilesForTool cfg toolId uploadedFiles
  let ps : ExecParams :=
    { files := relevantFiles, userRequest := userMessage,
      parameters := getToolParameters cfg toolId userMessage sel }
  match dispatch toolId ps with
  | .ok r => { toolId := toolId, success := true, result := some r }
  | .error e => { toolId := toolId, success := false, error := some e }

/-- The `executeTools` loop body: push one result per tool id, in order. -/
def executeToolsGo (cfg : List ToolConfig)
    (dispatch : String → ExecParams → Except String PVal)
    (sel : ToolSelection) (uploadedFiles : List FileRec) (userMessage : String) :
    List String → List ToolResult → List ToolResult
  | [], acc => acc
  | toolId :: rest, acc =>
      executeToolsGo cfg dispatch sel uploadedFiles userMessage rest
        (acc ++ [runTool cfg dispatch sel uploadedFiles userMessage toolId])

/-- Embeds `mcpBridge.executeTools`: run the resolved execution order sequentially,
catching each tool's failure into its own `ToolResult`. -/
def executeTools (cfg : List ToolConfig)
    (dispatch : String → ExecParams → Except String PVal)
    (sel : ToolSelection) (uploadedFiles : List FileRec) (userMessage : String) :
    List ToolResult :=
  executeToolsGo cfg dispatch sel uploadedFiles userMessage (resolvedOrder sel) []

/-- Embeds `mcpBridge.calculateConfidence`:
`successCount / totalCount`, and `0.5` for an empty result list. -/
def calculateConfidence (toolResults : List ToolResult) : ℚ :=
  let successfulTools := (toolResults.filter (fun r => r.success)).length
  let totalTools := toolResults.length
  if totalTools = 0 then 1/2
  else (successfulTools : ℚ) / (totalTools : ℚ)

/-- Rendering of an opaque payload used by `generateFallbackResponse`
(`JSON.stringify(result.result)`); the exact decimal rendering of numbers is
approximated, which no claim observes. -/
def pvalText : PVal → String
  | .num q => toString q
  | .str s => "\"" ++ s ++ "\""
  | .bool b => if b then "true" else "false"
  | .null => "null"
  | .nan => "null"

/-- Embeds `mcpBridge.generateFallbackResponse`: the deterministic bullet-point
rendering used when model synthesis fails. -/
def generateFallbackResponse (toolResults : List ToolResult) : String :=
  let successfulResults := toolResults.filter (fun r => r.success)
  let failedResults := toolResults.filter (fun r => ¬ r.success)
  if successfulResults.isEmpty then
    if ¬ failedResults.isEmpty then
      let errors := String.intercalate "\n"
        (failedResults.map (fun r => r.toolId ++ ": " ++ r.error.getD "undefined"))
      "I encountered the following errors while processing your request:\n\n" ++
        errors ++ "\n\nPlease check your files and system configuration."
    else
      "I apologize, but I couldn't process your request. Please ensure your files are valid and the system is properly configured."
  else
    let body := successfulResults.foldl (fun acc r =>
      let preview := (pvalText (r.result.getD PVal.null)).take 200
      acc ++ "**" ++ r.toolId ++ "**: " ++ preview ++
        (if preview.length = 200 then "..." else "") ++ "\n\n")
      "I've analyzed your files. Here's what I found:\n\n"
    if ¬ failedResults.isEmpty then
      body ++ "\nNote: Some tools encountered errors: " ++
        String.intercalate ", " (failedResults.map (fun r => r.toolId))
    else body

/-- Embeds `mcpBridge.synthesizeResponse`: deterministic apologies when nothing
succeeded; otherwise the model's synthesis reply, falling back to the
deterministic rendering if that reply fails.  The synthesis prompt (tool
results, last 3 context turns) only feeds the model and is absorbed into
the reply oracle. -/
def synthesizeResponse (o : Oracles) (toolResults : List ToolResult) : String :=
  let successfulResults := toolResults.filter (fun r => r.success)
  let failedResults := toolResults.filter (fun r => ¬ r.success)
  if successfulResults.isEmpty then
    if ¬ failedResults.isEmpty then
      let errorMessages := String.intercalate "; "
        (failedResults.map (fun r => r.toolId ++ ": " ++ r.error.getD "undefined"))
      "I encountered errors while processing your request: " ++ errorMessages ++
        ". Please check your files and try again."
    else
      "I apologize, but I couldn't process your request. No tools were successfully executed."
  else
    match o.synthesisReply with
    | .ok response => response
    | .error _ => generateFallbackResponse toolResults

/-- Embeds `mcpBridge.synthesizeResponseWithClaude`: the dedicated Claude synthesis
call, falling back to `synthesizeResponse` on error. -/
def synthesizeResponseWithClaude (o : Oracles) (toolResults : List ToolResult) :
    String :=
  match o.claudeSynthReply with
  | .ok response => response
  | .error _ => synthesizeResponse o toolResults

/-- The append-and-trim step of `updateConversationContext`: push the new
turn, then `splice(0, length - 20)` when over 20 entries. -/
def pushTrim (context : List ConversationTurn) (interaction : ConversationTurn) :
    List ConversationTurn :=
  let c := context ++ [interaction]
  if c.length > 20 then c.drop (c.length - 20) else c

/-- Embeds `mcpBridge.getConversationContext`: the stored turns, or `[]`. -/
def getConversationContext (st : BridgeState) (conversationId : String) :
    List ConversationTurn :=
  (getProp st.activeConversations conversationId).getD []

/-- Embeds `mcpBridge.updateConversationContext`: create the entry on first use,
append the interaction, and keep only the last 20 turns. -/
def updateConversationContext (st : BridgeState) (conversationId : String)
    (interaction : ConversationTurn) : BridgeState :=
  let newContext := pushTrim (getConversationContext st conversationId) interaction
  { st with activeConversations :=
      setProp st.activeConversations conversationId newContext }

/-- The catch-all turn result of `processUserRequest` (lines 121-132). -/
def errorTurn (conversationId message : String) : TurnResponse :=
  { response := "I encountered an error while processing your request: " ++
      message ++ ". Please check that your files are valid and the system is properly configured.",
    toolsUsed := [], confidence := 0, conversationId := conversationId,
    error := some message }

/-- Embeds `mcpBridge.processUserRequest`: the full pipeline.  The only statements
that can throw inside the `try` are the two initial guards (every later step
catches its own failures), so the embedding is a total function whose error
branches are exactly those guards; the stored conversation context feeds
prompt text only and is absorbed into the reply oracles. -/
def processUserRequest (cfg : List ToolConfig) (av : Availability) (o : Oracles)
    (st : BridgeState) (conversationId userMessage : String)
    (uploadedFiles : List FileRec) : TurnResponse × BridgeState :=
  if ¬ st.isInitialized then
    (errorTurn conversationId "MCP Bridge not initialized", st)
  else
    match st.currentModel with
    | none => (errorTurn conversationId "No model available", st)
    | some model =>
        let toolSelection :=
          if model.id = "claude-3-sonnet" && model.hasOrchestrate then
            selectToolsWithClaude cfg av o uploadedFiles
          else selectTools cfg av o uploadedFiles
        let toolResults :=
          executeTools cfg o.dispatch toolSelection uploadedFiles userMessage
        let response :=
          if model.id = "claude-3-sonnet" && model.hasSynthesize then
            synthesizeResponseWithClaude o toolResults
          else synthesizeResponse o toolResults
        let newState := updateConversationContext st conversationId
          { userMessage := userMessage, toolsUsed := toolSelection.selected_tools,
            toolResults := toolResults, response := response }
        ({ response := response, toolsUsed := toolSelection.selected_tools,
           confidence := calculateConfidence toolResults,
           conversationId := conversationId, error := none }, newState)

/-! ### Model Manager (`src/services/modelManager.js`) and model switching -/

/-- The capabilities of an initialized model client that the bridge
branches on. -/
structure ClientCaps where
  hasOrchestrate : Bool := false
  hasSynthesize : Bool := false
deriving Repr, DecidableEq

/-- Embeds `modelManager.getModel`: throws when no initialized client exists for
the id, otherwise wraps the client into a fresh handle.  (The companion
catalogue lookup for the display name always succeeds because clients are
built from the same catalogue; it does not affect the handle's behaviour
here.) -/
def getModel (clients : List (String × ClientCaps)) (modelId : String) :
    Except String ModelHandle :=
  match getProp clients modelId with
  | none => .error ("Model " ++ modelId ++ " not available")
  | some c =>
      .ok { id := modelId, hasOrchestrate := c.hasOrchestrate,
            hasSynthesize := c.hasSynthesize }

/-- Embeds `mcpBridge.switchModel`: fetch the handle, then replace `currentModel`;
the `catch` logs and rethrows, so on failure the state is returned as it
was. -/
def switchModel (clients : List (String × ClientCaps)) (st : BridgeState)
    (modelId : String) : Except String Bool × BridgeState :=
  match getModel clients modelId with
  | .error e => (.error e, st)
  | .ok model => (.ok true, { st with currentModel := some model })

/-! ### Retry helper (`src/utils/helpers.js`, never wired into dispatch) -/

/-- Loop body of `retryWithBackoff`: attempt `i`, then `i+1`, ..., up to
`fuel` further attempts, returning the last error.  The exponential backoff
delay between attempts is a timed suspension with no data effect. -/
def retryAux (fn : ℕ → Except String α) : ℕ → ℕ → Except String α
  | _, 0 => .error ""
  | i, fuel + 1 =>
      match fn i with
      | .ok v => .ok v
      | .error e => if fuel = 0 then .error e else retryAux fn (i + 1) fuel

/-- Embeds `helpers.retryWithBackoff(fn, maxRetries, baseDelay)`: `maxRetries`
total attempts; successive invocations of the effectful `fn` are modelled by
indexing it with the attempt number.  With `maxRetries = 0` the JavaScript
loop never runs and the function returns `undefined` (`none`). -/
def retryWithBackoff (fn : ℕ → Except String α) (maxRetries : ℕ) :
    Option (Except String α) :=
  if maxRetries = 0 then none else some (retryAux fn 0 maxRetries)

/-! ### Capability Dispatcher, MCP strategy (`src/services/mcpClient.js`) -/

/-- An error thrown by an HTTP attempt, with the `axios` error `code`
(`ECONNREFUSED`, `ETIMEDOUT`, ...) when present. -/
structure MCPErr where
  message : String
  code : Option String := none
deriving Repr, DecidableEq

/-- A resolved HTTP response (`axios` resolves only 2xx statuses). -/
structure HttpResp where
  status : ℕ
  data : PVal
deriving Repr, DecidableEq

/-- Embeds `mcpClient.executeTool`'s `toolEndpointMap`: per-tool specific paths. -/
def toolEndpointMap (toolId : String) : Option String :=
  if toolId = "extract_figures_from_pdf" then some "/extract-figures"
  else if toolId = "extract_tables_from_pdf" then some "/extract-tables"
  else if toolId = "extract_text_from_pdf" then some "/extract-text"
  else if toolId = "extract_formulas_from_pdf" then some "/extract-formulas"
  else if toolId = "get_pdf_document_stats" then some "/get-document-stats"
  else if toolId = "analyze_pdf_layout" then some "/analyze-layout"
  else if toolId = "extract_all_from_pdf" then some "/extract-all"
  else none

/-- The parameters sent to an MCP tool. -/
structure MCPParams where
  pdf_path : Option String := none
  confidence : PVal
deriving Repr, DecidableEq

/-- Embeds `mcpClient.convertParametersForMCP`: `pdf_path` is the path of the first
uploaded file whose MIME type is `application/pdf`; `confidence` is the
caller's value when defined, else `0.2`. -/
def convertParametersForMCP (_toolId : String) (parameters : ExecParams) :
    MCPParams :=
  let pdfFile := parameters.files.find? (fun f => f.type = "application/pdf")
  { pdf_path := pdfFile.map (fun f => f.path),
    confidence := (getProp parameters.parameters "confidence").getD (PVal.num (1/5)) }

/-- The candidate-endpoint cascade for a tool with a specific path
(lines 211-259): try the specific endpoint; on failure try the MCP protocol
endpoint; if that also fails, rethrow the specific endpoint's error. -/
def tryToolEndpoints (specific generic : Except MCPErr HttpResp) :
    Except MCPErr HttpResp :=
  match specific with
  | .ok r => .ok r
  | .error specificError =>
      match generic with
      | .ok r => .ok r
      | .error _ => .error specificError

/-- The outer `catch` of `mcpClient.executeTool`: reclassify connection
refusals and timeouts, rethrow anything else.  (The accompanying
`isConnected = false` side effect on `ECONNREFUSED` is bridge state not
consumed by any claim.) -/
def classifyMCPError (serverName toolId : String) (e : MCPErr) : MCPErr :=
  if e.code = some "ECONNREFUSED" then
    { message := "MCP server " ++ serverName ++ " is not accessible", code := e.code }
  else if e.code = some "ETIMEDOUT" then
    { message := "MCP tool " ++ toolId ++ " execution timed out", code := e.code }
  else e

/-- Embeds `mcpClient.executeTool`: guard on the connection flag, run the candidate
cascade (tools without a specific path go straight to the generic MCP
protocol endpoint), reject non-200 resolved responses, and classify errors
on the way out.  The HTTP outcome of each candidate is an oracle input. -/
def mcpExecuteTool (connected : Bool) (serverName toolId : String)
    (specific generic : Except MCPErr HttpResp) : Except MCPErr PVal :=
  let body : Except MCPErr PVal :=
    if ¬ connected then
      .error { message := "MCP server " ++ serverName ++ " is not connected" }
    else
      match (if (toolEndpointMap toolId).isSome then tryToolEndpoints specific generic
             else generic) with
      | .error e => .error e
      | .ok r =>
          if r.status ≠ 200 then
            .error { message := "MCP tool execution failed with status: " ++
              toString r.status }
          else .ok r.data

  match body with
  | .ok v => .ok v
  | .error e => .error (classifyMCPError serverName toolId e)

/-- Modelled from the spec: the confidence bound of §4.3 — "a bounded
numeric `confidence` parameter (clamped by the tool descriptor's declared
min/max, default 0.2)".  This is the spec's words, stated as a definition to
compare against `convertParametersForMCP`; the clamping it describes exists
nowhere in the source. -/
def specClampedConfidence (tc : ToolConfig) (v : ℚ) : ℚ :=
  match getProp tc.parameters "confidence" with
  | none => v
  | some spec =>
      let lo := match spec.min with
        | some m => max m v
        | none => v
      match spec.max with
      | some m => min m lo
      | none => lo

/-! ### Fixtures used by concrete witnesses and counterexamples -/

/-- Availability with every MCP server connected and the docker endpoint
configured: all 14 catalogue tools are live. -/
def allAvailable : Availability :=
  { mcpConnected := fun _ => true, dockerEndpointSet := true }

/-- The ids of the live-available tools. -/
def liveAvailableIds (cfg : List ToolConfig) (av : Availability) : List String :=
  (activeTools cfg av).map (fun t => t.1.id)

/-- A dispatcher-attempt schedule that fails on the first two attempts and
succeeds on the third — the spec's "fails twice then succeeds" scenario. -/
def flakySchedule : ℕ → Except String String :=
  fun attempt => if attempt < 2 then .error "ECONNREFUSED" else .ok "done"

/-- A plan whose separate `execution_order` names a tool that exists in no
catalogue. -/
def ghostSelection : ToolSelection :=
  { selected_tools := [], execution_order := some ["ghost_tool"] }

/-- A parsed plan without an `execution_order` field. -/
def noOrderPlan : ToolSelection :=
  { selected_tools := ["pdf_analyzer"], execution_order := none }

/-- Oracles under which the model's tool-selection reply parses to
`noOrderPlan` and every dispatch succeeds. -/
def noOrderOracles : Oracles :=
  { toolSelectionReply := .ok "",
    orchestrateReply := .error "unused",
    synthesisReply := .ok "synthesized",
    claudeSynthReply := .error "unused",
    parse := fun _ => some noOrderPlan,
    dispatch := fun _ _ => .ok (.str "payload") }

/-- Oracles that are never consulted (every reply errors). -/
def inertOracles : Oracles :=
  { toolSelectionReply := .error "down",
    orchestrateReply := .error "down",
    synthesisReply := .error "down",
    claudeSynthReply := .error "down",
    parse := fun _ => none,
    dispatch := fun _ _ => .error "down" }

/-! ### Shared lemmas -/

/-- Each loop iteration records the tool id it dispatched. -/
theorem runTool_toolId (cfg : List ToolConfig)
    (dispatch : String → ExecParams → Except String PVal) (sel : ToolSelection)
    (uploadedFiles : List FileRec) (userMessage toolId : String) :
    (runTool cfg dispatch sel uploadedFiles userMessage toolId).toolId = toolId := by
  simp only [runTool]
  split <;> rfl

/-- The `executeTools` loop appends exactly one result per tool id. -/
theorem executeToolsGo_eq (cfg : List ToolConfig)
    (dispatch : String → ExecParams → Except String PVal) (sel : ToolSelection)
    (uploadedFiles : List FileRec) (userMessage : String) :
    ∀ (order : List String) (acc : List ToolResult),
      executeToolsGo cfg dispatch sel uploadedFiles userMessage order acc =
        acc ++ order.map (runTool cfg dispatch sel uploadedFiles userMessage) := by
  intro order
  induction order with
  | nil => intro acc; simp [executeToolsGo]
  | cons toolId rest ih =>
      intro acc
      simp [executeToolsGo, ih]

/-- Unrolled form: `executeTools` is pointwise independent dispatch over the resolved
execution order. -/
theorem executeTools_eq_map (cfg : List ToolConfig)
    (dispatch : String → ExecParams → Except String PVal) (sel : ToolSelection)
    (uploadedFiles : List FileRec) (userMessage : String) :
    executeTools cfg dispatch sel uploadedFiles userMessage =
      (resolvedOrder sel).map (runTool cfg dispatch sel uploadedFiles userMessage) := by
  unfold executeTools
  simp [executeToolsGo_eq]

/-- The tool ids of the recorded results are exactly the resolved execution
order. -/
theorem executeTools_toolIds (cfg : List ToolConfig)
    (dispatch : String → ExecParams → Except String PVal) (sel : ToolSelection)
    (uploadedFiles : List FileRec) (userMessage : String) :
    (executeTools cfg dispatch sel uploadedFiles userMessage).map
      (fun r => r.toolId) = resolvedOrder sel := by
  rw [executeTools_eq_map, List.map_map]
  exact (List.map_congr_left (fun toolId _ => runTool_toolId ..)).trans (List.map_id _)

/-- Appending to a 20-element-or-shorter suffix keeps exactly the last 20
elements. -/
theorem pushTrim_suffix (ts : List ConversationTurn) (t : ConversationTurn) :
    pushTrim (ts.drop (ts.length - 20)) t =
      (ts ++ [t]).drop ((ts ++ [t]).length - 20) := by
  by_cases h : ts.length < 20
  · have h0 : ts.length - 20 = 0 := by omega
    have h1 : (ts ++ [t]).length - 20 = 0 := by
      rw [List.length_append, List.length_singleton]; omega
    have h2 : ¬ (ts ++ [t]).length > 20 := by
      rw [List.length_append, List.length_singleton]; omega
    rw [h0, List.drop_zero, h1, List.drop_zero]
    unfold pushTrim
    rw [if_neg h2]
  · have hlen : (ts.drop (ts.length - 20)).length = 20 := by
      rw [List.length_drop]; omega
    have hclen : (ts.drop (ts.length - 20) ++ [t]).length = 21 := by
      rw [List.length_append, hlen, List.length_singleton]
    have hcond : (ts.drop (ts.length - 20) ++ [t]).length > 20 := by
      rw [hclen]; omega
    have hstep : (ts.drop (ts.length - 20) ++ [t]).drop 1 =
        ts.drop (ts.length - 20 + 1) ++ [t] := by
      rw [List.drop_append_of_le_length (by rw [hlen]; omega), List.drop_drop,
        Nat.add_comm]
    have hrlen : (ts ++ [t]).length - 20 = ts.length - 20 + 1 := by
      rw [List.length_append, List.length_singleton]; omega
    have hfinal : (ts ++ [t]).drop (ts.length - 20 + 1) =
        ts.drop (ts.length - 20 + 1) ++ [t] :=
      List.drop_append_of_le_length (by omega)
    unfold pushTrim
    rw [if_pos hcond, hclen, show (21 : ℕ) - 20 = 1 from rfl, hstep, hrlen, hfinal]

/-- The folded context of any append sequence is its last-20 suffix. -/
theorem foldl_pushTrim (ts : List ConversationTurn) :
    List.foldl pushTrim [] ts = ts.drop (ts.length - 20) := by
  induction ts using List.reverseRecOn with
  | nil => rfl
  | append_singleton ts t ih =>
      rw [List.foldl_append, List.foldl_cons, List.foldl_nil, ih, pushTrim_suffix]

/-- Reading back the conversation entry just written. -/
theorem getProp_setProp (l : List (String × α)) (k : String) (v : α) :
    getProp (setProp l k v) k = some v := by
  induction l with
  | nil => simp [getProp, setProp, List.lookup]
  | cons kv rest ih =>
      by_cases h : kv.1 = k
      · simp [getProp, setProp, h, List.lookup]
      · have hbeq : (k == kv.1) = false := by
          simp [BEq.beq]
          exact fun hc => h hc.symm
        simpa [getProp, setProp, h, List.lookup, hbeq] using ih

/-- A `dropWhile` pass skips a block that contains no `}` and stops at the first
`}`. -/
theorem dropWhile_no_close (xs ys : List Char) (h : '}' ∉ xs) :
    (xs ++ '}' :: ys).dropWhile (fun c => c ≠ '}') = '}' :: ys := by
  induction xs with
  | nil => simp [List.dropWhile]
  | cons c rest ih =>
      have hc : c ≠ '}' := fun hc => h (hc ▸ List.mem_cons_self c rest)
      have := ih (fun hm => h (List.mem_cons_of_mem c hm))
      simpa [List.dropWhile, hc] using this

/-- When nothing after the closing brace is a `}`, the greedy tail of the
match ends exactly at that closing brace. -/
theorem takeToLastClose_concat (mid post : List Char) (hpost : '}' ∉ post) :
    takeToLastClose (mid ++ '}' :: post) = mid ++ ['}'] := by
  have hrev : '}' ∉ post.reverse := by simpa using hpost
  simp only [takeToLastClose, List.reverse_append, List.reverse_cons]
  rw [List.append_assoc, List.singleton_append,
      dropWhile_no_close post.reverse mid.reverse hrev]
  simp

/-- The regex `/\{[\s\S]*\}/` applied to a JSON object wrapped in brace-free
prose recovers exactly the object. -/
theorem braceMatch_wrapped (pre mid post : List Char)
    (hpre : '{' ∉ pre) (hpost : '}' ∉ post) :
    braceMatch (pre ++ '{' :: (mid ++ '}' :: post)) = some ('{' :: (mid ++ ['}'])) := by
  induction pre with
  | nil =>
      have hmem : (mid ++ '}' :: post).contains '}' = true := by
        simp [List.contains]
      simp only [List.nil_append, braceMatch, hmem]
      rw [takeToLastClose_concat mid post hpost]
      simp
  | cons c rest ih =>
      have hc : ¬ (c = '{') := fun hc => hpre (hc ▸ List.mem_cons_self c rest)
      have := ih (fun hm => hpre (List.mem_cons_of_mem c hm))
      simpa [braceMatch, hc] using this

/-- A `find?` over a prefix of non-PDF files lands on the first PDF file. -/
theorem find?_first_pdf (pre post : List FileRec) (f : FileRec)
    (hpre : ∀ g ∈ pre, g.type ≠ "application/pdf")
    (hf : f.type = "application/pdf") :
    (pre ++ f :: post).find? (fun g => g.type = "application/pdf") = some f := by
  induction pre with
  | nil => simp [List.find?_cons, hf]
  | cons g rest ih =>
      have hg : ¬ (g.type = "application/pdf") := hpre g (List.mem_cons_self g rest)
      have := ih (fun x hx => hpre x (List.mem_cons_of_mem g hx))
      simpa [List.find?_cons, hg] using this

/-! ### Claim theorems -/

/-- C4: executing a plan appends exactly one `ToolResult` per tool id of the
resolved execution order, in matching positions (equal lengths, the id at
position `i` of the results is the id at position `i` of the order), and each
position's result is the independent dispatch of that id alone — so a failure
at one position cannot abort the tools at later positions. -/
theorem executeTools_one_result_per_tool (cfg : List ToolConfig)
    (dispatch : String → ExecParams → Except String PVal) (sel : ToolSelection)
    (uploadedFiles : List FileRec) (userMessage : String) :
    (executeTools cfg dispatch sel uploadedFiles userMessage).map
        (fun r => r.toolId) = resolvedOrder sel
    ∧ (executeTools cfg dispatch sel uploadedFiles userMessage).length =
        (resolvedOrder sel).length
    ∧ executeTools cfg dispatch sel uploadedFiles userMessage =
        (resolvedOrder sel).map (runTool cfg dispatch sel uploadedFiles userMessage) := by
  refine ⟨?_, ?_, executeTools_eq_map ..⟩
  · rw [executeTools_eq_map, List.map_map]
    exact List.map_congr_left (fun toolId _ => runTool_toolId ..) |>.trans (List.map_id _)
  · rw [executeTools_eq_map, List.length_map]

/-- C6: the turn confidence is `successCount / totalToolCount` when the
result list is non-empty and exactly `1/2` when it is empty; in particular,
an empty resolved execution order yields no results and confidence `1/2`. -/
theorem confidence_success_fraction (cfg : List ToolConfig)
    (dispatch : String → ExecParams → Except String PVal) (sel : ToolSelection)
    (uploadedFiles : List FileRec) (userMessage : String)
    (toolResults : List ToolResult) :
    (toolResults.length = 0 → calculateConfidence toolResults = 1/2)
    ∧ (toolResults.length ≠ 0 → calculateConfidence toolResults =
        ((toolResults.filter (fun r => r.success)).length : ℚ) /
          (toolResults.length : ℚ))
    ∧ (resolvedOrder sel = [] →
        executeTools cfg dispatch sel uploadedFiles userMessage = []
        ∧ calculateConfidence
            (executeTools cfg dispatch sel uploadedFiles userMessage) = 1/2) := by
  refine ⟨fun h => by simp [calculateConfidence, h], fun h => by simp [calculateConfidence, h], fun h => ?_⟩
  have hempty : executeTools cfg dispatch sel uploadedFiles userMessage = [] := by
    rw [executeTools_eq_map, h]; rfl
  exact ⟨hempty, by simp [hempty, calculateConfidence]⟩

/-- One succeeded and one failed result, for concrete confidence checks. -/
def twoResults : List ToolResult :=
  [{ toolId := "a", success := true }, { toolId := "b", success := false }]

/-- Witness for C6 at a concrete empty-order plan and a concrete two-result
list. -/
theorem confidence_success_fraction_witness :
    calculateConfidence [] = 1/2
    ∧ calculateConfidence twoResults = 1/2
    ∧ executeTools toolsConfig inertOracles.dispatch
        { selected_tools := [] } [] "m" = [] := by
  refine ⟨(confidence_success_fraction toolsConfig inertOracles.dispatch
      { selected_tools := [] } [] "m" []).1 rfl, ?_, ?_⟩
  · have h := (confidence_success_fraction toolsConfig inertOracles.dispatch
      { selected_tools := [] } [] "m" twoResults).2.1 (by decide)
    rw [h]; norm_num [twoResults]
  · exact ((confidence_success_fraction toolsConfig inertOracles.dispatch
      { selected_tools := [] } [] "m" []).2.2 rfl).1

/-- C10: `switchModel` with a model id that has no initialized client fails
with an error and leaves the bridge state — in particular the active model
handle — unchanged, so subsequent requests keep using the previous model. -/
theorem switchModel_unknown_id_keeps_state (clients : List (String × ClientCaps))
    (st : BridgeState) (modelId : String)
    (h : getProp clients modelId = none) :
    switchModel clients st modelId =
      (.error ("Model " ++ modelId ++ " not available"), st)
    ∧ (switchModel clients st modelId).2.currentModel = st.currentModel := by
  have hget : getModel clients modelId =
      .error ("Model " ++ modelId ++ " not available") := by
    simp [getModel, h]
  constructor
  · simp [switchModel, hget]
  · simp [switchModel, hget]

/-- Witness for C10: switching to an id with no client, from a state whose
active model is the Claude handle, errors and keeps that handle. -/
theorem switchModel_unknown_id_keeps_state_witness :
    getProp [("claude-3-sonnet", ({ hasOrchestrate := true } : ClientCaps))]
        "missing-model" = none
    ∧ switchModel [("claude-3-sonnet", { hasOrchestrate := true })]
        { isInitialized := true,
          currentModel := some { id := "claude-3-sonnet", hasOrchestrate := true } }
        "missing-model" =
      (.error ("Model " ++ "missing-model" ++ " not available"),
        { isInitialized := true,
          currentModel := some { id := "claude-3-sonnet", hasOrchestrate := true } }) := by
  refine ⟨by decide, ?_⟩
  exact (switchModel_unknown_id_keeps_state
    [("claude-3-sonnet", { hasOrchestrate := true })]
    { isInitialized := true,
      currentModel := some { id := "claude-3-sonnet", hasOrchestrate := true } }
    "missing-model" (by decide)).1

/-- C2 (code-bug evidence): `mcp.json` declares the retry policy (max 2
retries, 1000 ms base delay, exponential backoff) and `helpers.js` ships
`retryWithBackoff` — under which a dispatcher schedule that fails twice and
then succeeds does succeed within three attempts — but `executeTools`
dispatches each planned tool exactly once with no retry wrapper, so the same
schedule produces a failed `ToolResult`. -/
theorem dispatch_is_never_retried :
    mcpRetryPolicy = { max_retries := 2, retry_delay := 1000, exponential_backoff := true }
    ∧ retryWithBackoff flakySchedule 3 = some (.ok "done")
    ∧ executeTools toolsConfig (fun _ _ => (flakySchedule 0).map PVal.str)
        { selected_tools := ["extract_all_from_pdf"] } [] "" =
      [{ toolId := "extract_all_from_pdf", success := false,
         error := some "ECONNREFUSED" }] := by
  exact ⟨rfl, rfl, by decide⟩

/-- C5: on a catastrophic failure of the whole turn — here, no model
available — `processUserRequest` does not throw: it returns the best-effort
apologetic response together with an `error` field, and leaves the stored
state untouched.  (Totality of the embedding over all oracle replies mirrors
the surrounding `try`/`catch`: no other input can produce a bare failure.) -/
theorem processUserRequest_no_model_apologizes (cfg : List ToolConfig)
    (av : Availability) (o : Oracles) (st : BridgeState)
    (conversationId userMessage : String) (uploadedFiles : List FileRec)
    (hinit : st.isInitialized = true) (hmodel : st.currentModel = none) :
    processUserRequest cfg av o st conversationId userMessage uploadedFiles =
      ({ response := "I encountered an error while processing your request: No model available. Please check that your files are valid and the system is properly configured.",
         toolsUsed := [], confidence := 0, conversationId := conversationId,
         error := some "No model available" }, st) := by
  simp [processUserRequest, hinit, hmodel, errorTurn]

/-- Witness for C5 at a concrete model-less state. -/
theorem processUserRequest_no_model_apologizes_witness :
    processUserRequest toolsConfig allAvailable inertOracles
        { isInitialized := true, currentModel := none } "c1" "hello" [] =
      ({ response := "I encountered an error while processing your request: No model available. Please check that your files are valid and the system is properly configured.",
         toolsUsed := [], confidence := 0, conversationId := "c1",
         error := some "No model available" },
        { isInitialized := true, currentModel := none }) :=
  processUserRequest_no_model_apologizes toolsConfig allAvailable inertOracles
    { isInitialized := true, currentModel := none } "c1" "hello" [] rfl rfl

/-- C9: for a tool with a specific endpoint, the candidates are tried in
order — the specific path first, then the generic call-by-name protocol
endpoint; the first candidate resolving with HTTP 200 determines the result
(a 200 on the specific path makes the generic outcome irrelevant), and when
both candidates fail the propagated error is the classification of the
first candidate's failure, not the fallback's. -/
theorem mcp_candidates_first_200_wins_first_error_propagates
    (serverName toolId : String) (payload : PVal) (e1 e2 : MCPErr)
    (generic : Except MCPErr HttpResp)
    (h : (toolEndpointMap toolId).isSome = true) :
    mcpExecuteTool true serverName toolId (.ok { status := 200, data := payload })
        generic = .ok payload
    ∧ mcpExecuteTool true serverName toolId (.error e1)
        (.ok { status := 200, data := payload }) = .ok payload
    ∧ mcpExecuteTool true serverName toolId (.error e1) (.error e2) =
        .error (classifyMCPError serverName toolId e1) := by
  refine ⟨?_, ?_, ?_⟩ <;> simp [mcpExecuteTool, tryToolEndpoints, h]

/-- Witness for C9 at the `extract_all_from_pdf` specific endpoint with
concrete outcomes. -/
theorem mcp_candidates_witness :
    (toolEndpointMap "extract_all_from_pdf").isSome = true
    ∧ mcpExecuteTool true "document_analysis" "extract_all_from_pdf"
        (.ok { status := 200, data := .str "payload" }) (.error { message := "boom2" }) =
      .ok (.str "payload")
    ∧ mcpExecuteTool true "document_analysis" "extract_all_from_pdf"
        (.error { message := "boom1" }) (.error { message := "boom2" }) =
      .error (classifyMCPError "document_analysis" "extract_all_from_pdf"
        { message := "boom1" }) := by
  refine ⟨by decide, ?_, ?_⟩
  · exact (mcp_candidates_first_200_wins_first_error_propagates
      "document_analysis" "extract_all_from_pdf" (.str "payload")
      { message := "boom1" } { message := "boom2" }
      (.error { message := "boom2" }) (by decide)).1
  · exact (mcp_candidates_first_200_wins_first_error_propagates
      "document_analysis" "extract_all_from_pdf" (.str "payload")
      { message := "boom1" } { message := "boom2" }
      (.error { message := "boom2" }) (by decide)).2.2

/-- An arbitrary stored turn for concrete context checks. -/
def blankTurn : ConversationTurn :=
  { userMessage := "", toolsUsed := [], toolResults := [], response := "" }

/-- C7: the stored conversation context never exceeds 20 turns; after any
sequence of appends it is exactly the last-20 suffix of the appended turns in
order, so appending a 21st turn evicts precisely the oldest stored turn while
preserving the FIFO order of the rest; and `updateConversationContext` stores
exactly this append-and-trim of the addressed conversation's entry. -/
theorem conversationContext_bounded_fifo (ts : List ConversationTurn)
    (ctx : List ConversationTurn) (turn : ConversationTurn) (st : BridgeState)
    (conversationId : String) :
    (List.foldl pushTrim [] ts).length ≤ 20
    ∧ List.foldl pushTrim [] ts = ts.drop (ts.length - 20)
    ∧ (ctx.length = 20 → pushTrim ctx turn = ctx.drop 1 ++ [turn])
    ∧ getConversationContext (updateConversationContext st conversationId turn)
        conversationId = pushTrim (getConversationContext st conversationId) turn := by
  refine ⟨?_, foldl_pushTrim ts, ?_, ?_⟩
  · rw [foldl_pushTrim, List.length_drop]; omega
  · intro h20
    have hgt : (ctx ++ [turn]).length > 20 := by
      rw [List.length_append, h20, List.length_singleton]; omega
    have hlen : (ctx ++ [turn]).length - 20 = 1 := by
      rw [List.length_append, h20, List.length_singleton]
    unfold pushTrim
    rw [if_pos hgt, hlen, List.drop_append_of_le_length (by omega)]
  · unfold updateConversationContext getConversationContext
    rw [getProp_setProp]
    rfl

/-- Witness for C7: appending 25 turns keeps the last 20, and the 21st
append onto a full 20-turn context evicts the oldest. -/
theorem conversationContext_bounded_fifo_witness :
    List.foldl pushTrim [] (List.replicate 25 blankTurn) =
      (List.replicate 25 blankTurn).drop 5
    ∧ pushTrim (List.replicate 20 blankTurn) blankTurn =
        (List.replicate 20 blankTurn).drop 1 ++ [blankTurn] := by
  constructor
  · have h := (conversationContext_bounded_fifo (List.replicate 25 blankTurn) []
      blankTurn { isInitialized := true, currentModel := none } "c").2.1
    simpa using h
  · exact (conversationContext_bounded_fifo [] (List.replicate 20 blankTurn)
      blankTurn { isInitialized := true, currentModel := none } "c").2.2.1 (by simp)

/-- C8: a model reply that is a valid JSON plan object wrapped in prose
containing no braces still parses: the brace-extraction step recovers
exactly the `{...}` span of the object, and the tool-selection parse applied
to the wrapped text yields the same plan the parse assigns to the bare
object. -/
theorem prose_wrapped_plan_still_parses (pre mid post : List Char)
    (parse : List Char → Option ToolSelection) (ts : ToolSelection)
    (hpre : '{' ∉ pre) (hpost : '}' ∉ post)
    (hparse : parse ('{' :: (mid ++ ['}'])) = some ts) :
    braceMatch (pre ++ '{' :: (mid ++ '}' :: post)) = some ('{' :: (mid ++ ['}']))
    ∧ extractSelection parse (pre ++ '{' :: (mid ++ '}' :: post)) = some ts := by
  have hmatch := braceMatch_wrapped pre mid post hpre hpost
  exact ⟨hmatch, by simp [extractSelection, hmatch, hparse]⟩

/-- The plan used by the C8 witness's constant parse oracle. -/
def proseWitnessPlan : ToolSelection :=
  { selected_tools := ["pdf_analyzer"], execution_order := none }

/-- Witness for C8: the object span inside `pre {«...»} thanks`-style prose
(concretely `p{a}t`) is recovered and parsed. -/
theorem prose_wrapped_plan_still_parses_witness :
    braceMatch (['p'] ++ '{' :: (['a'] ++ '}' :: ['t'])) =
      some ('{' :: (['a'] ++ ['}']))
    ∧ extractSelection (fun _ => some proseWitnessPlan)
        (['p'] ++ '{' :: (['a'] ++ '}' :: ['t'])) = some proseWitnessPlan :=
  prose_wrapped_plan_still_parses ['p'] ['a'] ['t']
    (fun _ => some proseWitnessPlan) proseWitnessPlan
    (by decide) (by decide) rfl

/-- The invocation parameters for the C3 counterexample: one PDF file and an
explicit confidence of 5, far above the declared maximum 0.9. -/
def overConfidenceParams : ExecParams :=
  { files := [{ name := "doc.pdf", type := "application/pdf",
                path := "/uploads/doc.pdf" }],
    userRequest := "m",
    parameters := [("confidence", PVal.num 5)] }

/-- C3 counterexample: the claim says the confidence parameter is clamped to
the descriptor's declared min/max; on the `extract_all_from_pdf` descriptor
(declared bounds 0.1–0.9) an explicit confidence of 5 is passed through as 5
by `convertParametersForMCP`, while the spec's clamping would produce 0.9. -/
theorem confidence_not_clamped_counterexample :
    (convertParametersForMCP "extract_all_from_pdf" overConfidenceParams).confidence =
      PVal.num 5
    ∧ (getToolConfig toolsConfig "extract_all_from_pdf").map
        (fun tc => specClampedConfidence tc 5) = some (9/10)
    ∧ PVal.num 5 ≠ PVal.num (9/10) := by
  refine ⟨rfl, ?_, ?_⟩
  · have hcfg : getToolConfig toolsConfig "extract_all_from_pdf" =
        some { id := "extract_all_from_pdf",
               input_types := ["application/pdf"],
               parameters := [("confidence",
                 { type := "number", default := .num (1/5),
                   min := some (1/10), max := some (9/10) })],
               source := "mcp", server := some "document_analysis" } := rfl
    rw [hcfg]
    simp [specClampedConfidence, getProp, List.lookup]
    norm_num [max_def, min_def]
  · intro hcontra
    have : (5 : ℚ) = 9/10 := by injection hcontra
    norm_num at this

/-- C3 (amended): parameter translation selects as the single primary input
path the first file whose MIME type is `application/pdf` (which coincides
with every capability-server tool's declared input type in the catalogue),
and passes the caller's numeric confidence through unclamped, defaulting to
0.2 when absent; the descriptor's declared min/max bounds are not enforced. -/
theorem convertParameters_first_pdf_unclamped (toolId msg : String)
    (pre post : List FileRec) (f : FileRec) (ps : List (String × PVal))
    (hpre : ∀ g ∈ pre, g.type ≠ "application/pdf")
    (hf : f.type = "application/pdf") :
    (convertParametersForMCP toolId
        { files := pre ++ f :: post, userRequest := msg, parameters := ps }).pdf_path =
      some f.path
    ∧ (getProp ps "confidence" = none →
        (convertParametersForMCP toolId
          { files := pre ++ f :: post, userRequest := msg,
            parameters := ps }).confidence = PVal.num (1/5))
    ∧ (∀ v, getProp ps "confidence" = some v →
        (convertParametersForMCP toolId
          { files := pre ++ f :: post, userRequest := msg,
            parameters := ps }).confidence = v) := by
  have hfind := find?_first_pdf pre post f hpre hf
  refine ⟨?_, ?_, ?_⟩
  · simp [convertParametersForMCP, hfind]
  · intro h; simp [convertParametersForMCP, h]
  · intro v h; simp [convertParametersForMCP, h]

/-- Witness for C3's amended statement: a PNG before the PDF, once with an
explicit confidence and once without. -/
theorem convertParameters_first_pdf_unclamped_witness :
    (convertParametersForMCP "extract_all_from_pdf"
        { files := [{ name := "b.png", type := "image/png", path := "/uploads/b.png" },
                    { name := "doc.pdf", type := "application/pdf",
                      path := "/uploads/doc.pdf" }],
          userRequest := "m", parameters := [] }).pdf_path = some "/uploads/doc.pdf"
    ∧ (convertParametersForMCP "extract_all_from_pdf"
        { files := [{ name := "b.png", type := "image/png", path := "/uploads/b.png" },
                    { name := "doc.pdf", type := "application/pdf",
                      path := "/uploads/doc.pdf" }],
          userRequest := "m", parameters := [] }).confidence = PVal.num (1/5) := by
  have h := convertParameters_first_pdf_unclamped "extract_all_from_pdf" "m"
    [{ name := "b.png", type := "image/png", path := "/uploads/b.png" }] []
    { name := "doc.pdf", type := "application/pdf", path := "/uploads/doc.pdf" } []
    (by decide) rfl
  exact ⟨h.1, h.2.1 rfl⟩

/-- C1 counterexample: a plan whose separate `execution_order` names
`ghost_tool` — an id in no catalogue, hence not live-available — still has
that id dispatched by the Executing phase (the dispatcher rejects it with
"Tool not found", producing a failed `ToolResult`, rather than the id being
dropped before execution). -/
theorem unknown_id_in_execution_order_is_executed :
    executeTools toolsConfig
        (toolManagerDispatch toolsConfig (fun _ _ => .error "io") (fun _ _ => .error "io"))
        ghostSelection [] "run" =
      [{ toolId := "ghost_tool", success := false,
         error := some "Tool ghost_tool not found" }]
    ∧ "ghost_tool" ∉ liveAvailableIds toolsConfig allAvailable := by
  exact ⟨by decide, by decide⟩

/-- C1 (amended): only the plan's `selected_tools` list is post-filtered
against the live-available catalogue.  Consequently, when the parsed plan
carries no separate `execution_order`, every tool id the Executing phase
dispatches is live-available; but a plan-supplied `execution_order` (and the
heuristic fallback's order) is used unfiltered, so ids appearing only there
are dispatched even when unknown or unavailable. -/
theorem filtered_selected_tools_drive_execution (cfg : List ToolConfig)
    (av : Availability) (o : Oracles) (uploadedFiles : List FileRec)
    (userMessage resp : String) (ts : ToolSelection)
    (hactive : (activeTools cfg av).isEmpty = false)
    (hreply : o.toolSelectionReply = .ok resp)
    (hparse : extractSelection o.parse resp.toList = some ts)
    (horder : ts.execution_order = none) :
    ∀ toolId ∈ (executeTools cfg o.dispatch (selectTools cfg av o uploadedFiles)
        uploadedFiles userMessage).map (fun r => r.toolId),
      toolId ∈ liveAvailableIds cfg av := by
  intro toolId hmem
  rw [executeTools_toolIds] at hmem
  have hsel : selectTools cfg av o uploadedFiles =
      ToolSelection.mk
        (List.filter (fun tid => (activeTools cfg av).any (fun t => t.1.id = tid))
          ts.selected_tools)
        ts.reasoning ts.execution_order ts.tool_parameters ts.file_requirements := by
    rw [selectTools]
    simp only [hactive, Bool.false_eq_true, if_false, hreply, hparse]
  rw [hsel] at hmem
  simp only [resolvedOrder, horder, Option.getD_none] at hmem
  rw [List.mem_filter] at hmem
  obtain ⟨-, hany⟩ := hmem
  rw [List.any_eq_true] at hany
  obtain ⟨t, ht, heq⟩ := hany
  rw [decide_eq_true_iff] at heq
  unfold liveAvailableIds
  exact heq ▸ List.mem_map_of_mem (fun t => t.1.id) ht

/-- Witness for C1's amended statement: the full catalogue live, a parsed
plan selecting `pdf_analyzer` with no `execution_order`. -/
theorem filtered_selected_tools_drive_execution_witness :
    (activeTools toolsConfig allAvailable).isEmpty = false
    ∧ ∀ toolId ∈ (executeTools toolsConfig noOrderOracles.dispatch
        (selectTools toolsConfig allAvailable noOrderOracles []) [] "msg").map
          (fun r => r.toolId),
        toolId ∈ liveAvailableIds toolsConfig allAvailable :=
  ⟨by decide,
   filtered_selected_tools_drive_execution toolsConfig allAvailable noOrderOracles
     [] "msg" "" noOrderPlan (by decide) rfl rfl rfl⟩

end BIBackend
